import Mathlib

/-!
Verification of the `ubiquiti-video` retrieval and audio-extraction pipelines.

The development shallowly embeds the TypeScript sources:
* `getVideo` (windowed retrieval loop, overwrite guard, throughput reporter,
  mkv conversion) from `ubiquiti.ts`;
* the cookie-refresh logic of `postWithCookies` / `getBinaryDataWithCookies`;
* the `extract-audio` command handler (chunk partitioning) from
  `ubiquiti-video.ts`.

Instants are epoch milliseconds (`Nat`), matching `Date.getTime()`.
External effects (date formatting, the HTTP transport, the size of the bytes a
download writes, ffmpeg's success) are parameters of an `Env` record; the
filesystem is an explicit association list from filename to size in bytes.
-/

set_option maxRecDepth 100000

/-- A camera as consumed by the retrieval loop: `getVideo` reads only `id`
and `name` of the full Zod camera record. -/
structure Camera where
  id : String
  name : String
deriving DecidableEq, Repr

/-- The local filesystem visible to the loop: filename to size in bytes
(models `fs.existsSync` / `fs.statSync(...).size`). -/
abbrev FS : Type := List (String × Nat)

/-- Size of the file at `f`, `none` when `fs.existsSync` is false. -/
def FS.statSize (fs : FS) (f : String) : Option Nat :=
  (List.find? (fun p => p.1 == f) fs).map (fun p => p.2)

/-- Models `fs.unlinkSync f`. -/
def FS.unlink (fs : FS) (f : String) : FS :=
  List.filter (fun p => !(p.1 == f)) fs

/-- Models creating/truncating `f` and streaming `n` bytes into it. -/
def FS.write (fs : FS) (f : String) (n : Nat) : FS :=
  FS.unlink fs f ++ [(f, n)]

/-- Observable actions of one `getVideo` run, in program order. -/
inductive Event where
  | downloaded (cameraId : String) (startMs endMs : Nat) (filename : String)
  | skipped (filename : String)
  | converted (input output : String)
  | removed (filename : String)
deriving DecidableEq, Repr

/-- Whether an event is a download (a call of `getBinaryDataWithCookies`). -/
def Event.isDownload : Event → Bool
  | .downloaded _ _ _ _ => true
  | _ => false

/-- One entry of the list `getVideo` returns (`OutputFileSchema`): the camera
record is narrowed to `id`/`name` and `start`/`end` are the original call
arguments, not the window bounds. -/
structure OutputFile where
  cameraId : String
  cameraName : String
  startMs : Nat
  endMs : Nat
  filename : String
deriving DecidableEq, Repr

/-- State threaded through the retrieval loop. -/
structure RunState where
  fs : FS
  events : List Event
  outputFiles : List OutputFile
deriving DecidableEq, Repr

/-- External collaborators of `getVideo`:
* `fmt` is date-fns `format(date, 'yyyy-MM-dd hh:mm:ss aa')` on an epoch-ms
  instant (an injected formatter; its exact rendering is outside the core);
* `downloadSize url` is the number of bytes the server streams for `url`
  (the transport is modelled as succeeding; network failure is external);
* `convertOk input` is whether the ffmpeg remux of `input` succeeds;
* `convertedSize output` is the size ffmpeg writes to `output` on success. -/
structure Env where
  fmt : Nat → String
  downloadSize : String → Nat
  convertOk : String → Bool
  convertedSize : String → Nat

/-- The export URL built by `getVideo`
(`.../video/export?camera=<id>&start=<ms>&end=<ms>`). -/
def exportUrl (cameraId : String) (startMs endMs : Nat) : String :=
  "https://192.168.0.1:443/proxy/protect/api/video/export?camera=" ++ cameraId
    ++ "&start=" ++ toString startMs ++ "&end=" ++ toString endMs

/-- Base filename `${formattedStart}_${formattedEnd}_${camera.name}`. -/
def baseFilename (env : Env) (cur curEnd : Nat) (cameraName : String) : String :=
  env.fmt cur ++ "_" ++ env.fmt curEnd ++ "_" ++ cameraName

/-- Sixty minutes in milliseconds: `add(currentStart, { minutes: 60 })`
advances an instant by exactly this amount. -/
def maxMinuteDiffMs : Nat := 3600000

/-- Outcome of the pre-download existence check (lines 318-327 of
`ubiquiti.ts`). -/
inductive GuardDecision where
  | proceed
  | block
deriving DecidableEq, Repr

/-- The overwrite guard: a missing file proceeds; an existing zero-byte file
is unlinked and proceeds; an existing non-empty file blocks (the code logs
and `continue`s). Returns the decision and the possibly updated filesystem. -/
def overwriteGuard (fs : FS) (f : String) : GuardDecision × FS :=
  match FS.statSize fs f with
  | some sz => if sz = 0 then (.proceed, FS.unlink fs f) else (.block, fs)
  | none => (.proceed, fs)

/-- Body of `for (const camera of cameras) { ... }` in `getVideo` for one
camera: builds url and filenames from the loop cursor, advances the cursor by
60 minutes (the source mutates `currentStart` here, inside the camera loop),
applies the overwrite guard, then downloads and optionally converts.
Returns the new state, the new cursor, and `some msg` when the ffmpeg
conversion rejected (which makes `getVideo` itself reject). -/
def cameraBody (env : Env) (mp4 : Bool) (startArg endArg : Nat) (camera : Camera)
    (cur curEnd : Nat) (st : RunState) : RunState × Nat × Option String :=
  let url := exportUrl camera.id cur curEnd
  let base := baseFilename env cur curEnd camera.name
  let mp4Filename := base ++ ".mp4"
  let mkvFilename := base ++ ".mkv"
  let cur' := cur + maxMinuteDiffMs
  match overwriteGuard st.fs mp4Filename with
  | (.block, fs') =>
      ({ st with fs := fs', events := st.events ++ [.skipped mp4Filename] }, cur', none)
  | (.proceed, fs') =>
      let size := env.downloadSize url
      let fs1 := FS.write fs' mp4Filename size
      let st1 : RunState :=
        { st with fs := fs1
                  events := st.events ++ [.downloaded camera.id cur curEnd mp4Filename] }
      if mp4 then
        ({ st1 with outputFiles := st1.outputFiles ++
              [⟨camera.id, camera.name, startArg, endArg, mp4Filename⟩] }, cur', none)
      else
        if env.convertOk mp4Filename then
          let fs2 := FS.unlink (FS.write fs1 mkvFilename (env.convertedSize mkvFilename)) mp4Filename
          ({ fs := fs2
             events := st1.events ++ [.converted mp4Filename mkvFilename, .removed mp4Filename]
             outputFiles := st1.outputFiles ++
               [⟨camera.id, camera.name, startArg, endArg, mkvFilename⟩] }, cur', none)
        else
          (st1, cur', some ("Conversion error: " ++ mp4Filename))

/-- The camera loop for one window iteration: the shared `currentEnd` was
computed before the loop, while `cur` advances inside `cameraBody` once per
camera. A conversion error aborts the loop. -/
def camerasLoop (env : Env) (mp4 : Bool) (startArg endArg : Nat) :
    List Camera → Nat → Nat → RunState → RunState × Nat × Option String
  | [], cur, _, st => (st, cur, none)
  | camera :: rest, cur, curEnd, st =>
      match cameraBody env mp4 startArg endArg camera cur curEnd st with
      | (st', cur', none) => camerasLoop env mp4 startArg endArg rest cur' curEnd st'
      | (st', cur', some e) => (st', cur', some e)

/-- The `while (isBefore(currentStart, end))` loop of `getVideo`, fuel-indexed
because the source loop need not terminate (an empty camera list never
advances the cursor). `none` means the fuel ran out; `some (st, err?)` is a
finished run, with `err? = some msg` when a conversion rejected.
`currentEnd` is `currentStart + 60min` when the truncated minute difference
`differenceInMinutes(end, currentStart)` exceeds 60, and `end` otherwise. -/
def getVideoFuel (env : Env) (mp4 : Bool) (cameras : List Camera) (startArg endArg : Nat) :
    Nat → Nat → RunState → Option (RunState × Option String)
  | 0, cur, st => if cur < endArg then none else some (st, none)
  | fuel + 1, cur, st =>
      if cur < endArg then
        let diffInMinutes := (endArg - cur) / 60000
        let curEnd := if 60 < diffInMinutes then cur + maxMinuteDiffMs else endArg
        match camerasLoop env mp4 startArg endArg cameras cur curEnd st with
        | (st', cur', none) => getVideoFuel env mp4 cameras startArg endArg fuel cur' st'
        | (st', _, some e) => some (st', some e)
      else some (st, none)

/-- A whole `getVideo` run from an initial filesystem: cursor starts at
`start`, event and output lists start empty. -/
def getVideoRun (env : Env) (mp4 : Bool) (cameras : List Camera)
    (startArg endArg : Nat) (fuel : Nat) (fs0 : FS) : Option (RunState × Option String) :=
  getVideoFuel env mp4 cameras startArg endArg fuel startArg ⟨fs0, [], []⟩

/-- A session-token set: a JS object mapping token name to token value,
modelled as an insertion-ordered association list without duplicate keys. -/
abbrev Cookies : Type := List (String × String)

/-- Reads `m[name]` of the JS object. -/
def lookupCookie (m : Cookies) (name : String) : Option String :=
  (List.find? (fun p => p.1 == name) m).map (fun p => p.2)

/-- Models the JS assignment `m[k] = v`: replaces the value in place when the
key is present, otherwise appends the new binding. -/
def setCookie : Cookies → String → String → Cookies
  | [], k, v => [(k, v)]
  | (k', v') :: rest, k, v =>
      if k' == k then (k, v) :: rest else (k', v') :: setCookie rest k v

/-- JS `String.prototype.split` with a single-character separator, on the
character list of the string: splitting the empty string yields `[[]]`
(JS: `"".split(';') === [""]`), and every separator occurrence opens a new
segment. -/
def splitOnChar (sep : Char) : List Char → List (List Char)
  | [] => [[]]
  | c :: rest =>
      match splitOnChar sep rest with
      | [] => [[c]]
      | seg :: segs => if c = sep then [] :: seg :: segs else (c :: seg) :: segs

/-- JS `String.prototype.trim`: strips leading and trailing whitespace. -/
def trimChars (cs : List Char) : List Char :=
  ((cs.dropWhile Char.isWhitespace).reverse.dropWhile Char.isWhitespace).reverse

/-- Models `const [key, value] = cookie.split(';')[0].split('=')` followed by
`key.trim()` / `value.trim()`. When the first `;`-segment holds no `=`, the
destructured `value` is `undefined` and `value.trim()` throws, modelled as
`none`; extra `=`-segments beyond the second are dropped by the
destructuring, as in the source. -/
def parseSetCookie (cookieStr : String) : Option (String × String) :=
  let firstSegment := (splitOnChar ';' cookieStr.data).headD []
  let kv := splitOnChar '=' firstSegment
  match kv[0]?, kv[1]? with
  | some k, some v => some (String.mk (trimChars k), String.mk (trimChars v))
  | _, _ => none

/-- The `setCookieHeader.forEach(...)` loop: assigns each parsed cookie into a
copy of the input map; a throw while parsing aborts the whole call (`none`). -/
def applySetCookies (cookies : Cookies) : List String → Option Cookies
  | [] => some cookies
  | h :: rest =>
      match parseSetCookie h with
      | some (k, v) => applySetCookies (setCookie cookies k v) rest
      | none => none

/-- The token names a list of `Set-Cookie` header lines mentions. -/
def setCookieNames (headerLines : List String) : List String :=
  headerLines.filterMap (fun h => (parseSetCookie h).map (fun p => p.1))

/-- The `updatedCookies` value `postWithCookies` returns, as a function of the
input map and the response's `set-cookie` header (`none` when the header is
absent, in which case `updatedCookies` is the spread copy `{ ...cookies }`). -/
def postWithCookiesUpdate (cookies : Cookies) (setCookieHeader : Option (List String)) :
    Option Cookies :=
  match setCookieHeader with
  | none => some cookies
  | some headerLines => applySetCookies cookies headerLines

/-- The `updatedCookies` value `getBinaryDataWithCookies` returns: the source
duplicates the same header-processing block verbatim (its guard `!= null`
coincides with `!== undefined` on the modelled header). -/
def getBinaryDataWithCookiesUpdate (cookies : Cookies) (setCookieHeader : Option (List String)) :
    Option Cookies :=
  match setCookieHeader with
  | none => some cookies
  | some headerLines => applySetCookies cookies headerLines

/-- JS `Math.round` on a non-negative value: half-way cases round up. -/
def jsRound (q : ℚ) : ℤ := ⌊q + 1 / 2⌋

/-- The throughput string of `getVideo` (lines 336-347):
`throughput = mp4FileStats.size / diffInSeconds` with no guard against a zero
elapsed time, then `> 1_000_000` selects the MB rendering. When
`diffInSeconds = 0`, JS division yields `Infinity` (or `NaN` for a 0-byte
file); `Infinity > 1_000_000` is true, `Math.round(Infinity) = Infinity`, and
the template literal renders `"Infinity MB"` (resp. `"NaN B"`). -/
def throughputString (fileSizeBytes diffInSeconds : Nat) : String :=
  if diffInSeconds = 0 then
    if fileSizeBytes = 0 then "NaN B" else "Infinity MB"
  else
    let throughput : ℚ := (fileSizeBytes : ℚ) / (diffInSeconds : ℚ)
    if 1000000 < throughput then toString (jsRound (throughput / 1000000)) ++ " MB"
    else toString (jsRound throughput) ++ " B"

/-- Modelled from the spec's own formula (§4.5), for comparison with the code:
`rate = fileSizeBytes / max(1, elapsedSeconds)`, rendered as
`round(rate/1_000_000) ++ " MB"` when `rate > 1_000_000`, otherwise
`round(rate) ++ " B"`. -/
def throughputStringSpec (fileSizeBytes elapsedSeconds : Nat) : String :=
  let rate : ℚ := (fileSizeBytes : ℚ) / ((max 1 elapsedSeconds : Nat) : ℚ)
  if 1000000 < rate then toString (jsRound (rate / 1000000)) ++ " MB"
  else toString (jsRound rate) ++ " B"

/-- The loop `for (let loop = 0; loop < numberOfChunks; loop++)` of the
`extract-audio` handler, collecting the values of `loop`. The guard compares
the integer counter against the possibly fractional `numberOfChunks`, so the
recursion is fuel-indexed (the fuel is spent only alongside the guard). -/
def chunkLoopAux (numberOfChunks : ℚ) : Nat → Nat → List Nat
  | 0, _ => []
  | fuel + 1, loop =>
      if (loop : ℚ) < numberOfChunks then loop :: chunkLoopAux numberOfChunks fuel (loop + 1)
      else []

/-- The start offsets the handler loop enumerates, starting from `loop = 0`;
`⌈numberOfChunks⌉` iterations of fuel always suffice. -/
def chunkOffsets (numberOfChunks : ℚ) : List Nat :=
  chunkLoopAux numberOfChunks (Int.toNat ⌈numberOfChunks⌉) 0

/-- The handler computes `numberOfChunks = durationInSeconds - chunkDuration`
with no rounding; `durationInSeconds` is ffprobe's possibly fractional
duration. -/
def numberOfChunks (durationInSeconds chunkDuration : ℚ) : ℚ :=
  durationInSeconds - chunkDuration

/-- The extraction jobs the handler schedules: each enumerated offset is
passed to `extractAudio(inputFile, loop, chunkDuration)` paired with the fixed
chunk duration. -/
def chunkJobs (durationInSeconds chunkDuration : ℚ) : List (Nat × ℚ) :=
  (chunkOffsets (numberOfChunks durationInSeconds chunkDuration)).map
    (fun loop => (loop, chunkDuration))

/-- The handler's collection step: `Promise.all` resolves with the results in
submission order, or rejects with the first failure; on zero jobs it resolves
with `[]`. `extract` is the outcome of one `extractAudio` job. -/
def extractAudioHandlerResult (durationInSeconds chunkDuration : ℚ)
    (extract : Nat → ℚ → Except String String) : Except String (List String) :=
  (chunkOffsets (numberOfChunks durationInSeconds chunkDuration)).mapM
    (fun loop => extract loop chunkDuration)

/-- A concrete environment used to run the model on explicit inputs: the
formatter renders the epoch instant itself, every download writes 5 bytes,
conversion succeeds and writes 7 bytes. -/
def testEnv : Env := ⟨fun n => toString n, fun _ => 5, fun _ => true, fun _ => 7⟩

/-- A concrete environment whose ffmpeg conversion always fails. -/
def failConvertEnv : Env := ⟨fun n => toString n, fun _ => 5, fun _ => false, fun _ => 7⟩

theorem string_append_cancel {a b c : String} (h : a ++ b = a ++ c) : b = c := by
  have h2 : (a ++ b).data = (a ++ c).data := by rw [h]
  rw [String.data_append, String.data_append] at h2
  exact String.ext (List.append_cancel_left h2)

/-- The raw and converted filenames of one (camera, window) pair differ. -/
theorem mp4_beq_mkv_false (base : String) :
    ((base ++ ".mp4") == (base ++ ".mkv")) = false := by
  rw [beq_eq_false_iff_ne]
  intro h
  have := string_append_cancel h
  simp at this

/-- Looking up a freshly written file returns the written size. -/
theorem FS.statSize_write (fs : FS) (f : String) (n : Nat) :
    FS.statSize (FS.write fs f n) f = some n := by
  rw [FS.write, FS.statSize]
  induction fs with
  | nil => simp [FS.unlink, List.find?]
  | cons p t ih =>
      rw [FS.unlink] at ih ⊢
      by_cases h : p.1 == f
      · simpa [List.filter, h] using ih
      · simp only [List.filter, h, Bool.not_false, List.cons_append, List.find?, h]
        simpa [h] using ih

/-- Files other than the written one are unaffected by a write. -/
theorem FS.statSize_write_ne (fs : FS) (f g : String) (n : Nat) (h : (g == f) = false) :
    FS.statSize (FS.write fs f n) g = FS.statSize fs g := by
  rw [FS.write, FS.statSize, FS.statSize, FS.unlink]
  induction fs with
  | nil => simp [List.find?, BEq.symm_false h]
  | cons p t ih =>
      by_cases hp : p.1 == f
      · have hpg : (p.1 == g) = false := by
          have hf : p.1 = f := eq_of_beq hp
          subst hf
          exact BEq.symm_false h
        simp only [List.filter, hp, Bool.not_true, List.find?, hpg]
        simpa [hpg] using ih
      · by_cases hg : p.1 == g
        · simp [List.filter, hp, List.find?, hg]
        · simp only [List.filter, hp, Bool.not_false, List.cons_append, List.find?, hg]
          simpa [hg] using ih

/-- Unlinking removes the file. -/
theorem FS.statSize_unlink (fs : FS) (f : String) :
    FS.statSize (FS.unlink fs f) f = none := by
  rw [FS.statSize, FS.unlink]
  induction fs with
  | nil => simp [List.find?]
  | cons p t ih =>
      by_cases hp : p.1 == f
      · simpa [List.filter, hp] using ih
      · simp only [List.filter, hp, Bool.not_false, List.find?, hp]
        simpa using ih

/-- Unlinking leaves other files alone. -/
theorem FS.statSize_unlink_ne (fs : FS) (f g : String) (h : (g == f) = false) :
    FS.statSize (FS.unlink fs f) g = FS.statSize fs g := by
  rw [FS.statSize, FS.statSize, FS.unlink]
  induction fs with
  | nil => simp
  | cons p t ih =>
      by_cases hp : p.1 == f
      · have hpg : (p.1 == g) = false := by
          have hf : p.1 = f := eq_of_beq hp
          subst hf
          exact BEq.symm_false h
        simp only [List.filter, hp, Bool.not_true, List.find?, hpg]
        simpa [hpg] using ih
      · by_cases hg : p.1 == g
        · simp [List.filter, hp, List.find?, hg]
        · simp only [List.filter, hp, Bool.not_false, List.find?, hg]
          simpa [hg] using ih

/-- The handler loop enumerates exactly the naturals below `numberOfChunks`,
provided the fuel covers `⌈numberOfChunks⌉` iterations. -/
theorem chunkLoopAux_eq_range' (q : ℚ) :
    ∀ fuel i, Int.toNat ⌈q⌉ ≤ i + fuel →
      chunkLoopAux q fuel i = List.range' i (Int.toNat ⌈q⌉ - i) := by
  intro fuel
  induction fuel with
  | zero =>
      intro i h
      rw [chunkLoopAux]
      rw [show Int.toNat ⌈q⌉ - i = 0 by omega]
      rfl
  | succ fuel ih =>
      intro i h
      rw [chunkLoopAux]
      by_cases hlt : (i : ℚ) < q
      · have hceil : (i : ℤ) < ⌈q⌉ := Int.lt_ceil.mpr (by push_cast; exact hlt)
        have hi : i < Int.toNat ⌈q⌉ := by omega
        rw [if_pos hlt, ih (i + 1) (by omega)]
        rw [show Int.toNat ⌈q⌉ - i = (Int.toNat ⌈q⌉ - (i + 1)) + 1 by omega]
        rw [List.range'_succ]
      · have hle : q ≤ (i : ℚ) := le_of_not_lt hlt
        have hceil : ⌈q⌉ ≤ (i : ℤ) := Int.ceil_le.mpr (by push_cast; exact hle)
        rw [if_neg hlt]
        rw [show Int.toNat ⌈q⌉ - i = 0 by omega]
        rfl

/-- The start offsets are `0, 1, ..., ⌈numberOfChunks⌉ - 1`. -/
theorem chunkOffsets_eq_range (q : ℚ) :
    chunkOffsets q = List.range (Int.toNat ⌈q⌉) := by
  rw [chunkOffsets, chunkLoopAux_eq_range' q (Int.toNat ⌈q⌉) 0 (by omega)]
  rw [Nat.sub_zero, List.range_eq_range']

/-- Assigning one token leaves the lookups of all other names unchanged. -/
theorem lookupCookie_setCookie_ne (m : Cookies) (k v name : String) (h : ¬ k = name) :
    lookupCookie (setCookie m k v) name = lookupCookie m name := by
  induction m with
  | nil =>
      rw [setCookie, lookupCookie, lookupCookie]
      simp only [List.find?]
      rw [show (k == name) = false by simp [beq_eq_false_iff_ne, h]]
  | cons p t ih =>
      rw [setCookie]
      by_cases hp : p.1 == k
      · have hpk : p.1 = k := eq_of_beq hp
        rw [if_pos hp, lookupCookie, lookupCookie]
        simp only [List.find?]
        rw [show (k == name) = false by simp [beq_eq_false_iff_ne, h],
          show (p.1 == name) = false by simp [hpk, beq_eq_false_iff_ne, h]]
      · rw [if_neg (by simpa using hp), lookupCookie, lookupCookie]
        simp only [List.find?]
        by_cases hn : p.1 == name
        · rw [hn]
        · rw [show (p.1 == name) = false by simpa using hn]
          exact ih

/-- Processing a list of `Set-Cookie` lines touches only the names those
lines mention. -/
theorem applySetCookies_lookup_frame (name : String) :
    ∀ (headerLines : List String) (c m : Cookies),
      applySetCookies c headerLines = some m →
      name ∉ setCookieNames headerLines →
      lookupCookie m name = lookupCookie c name := by
  intro headerLines
  induction headerLines with
  | nil =>
      intro c m hm _
      rw [applySetCookies] at hm
      cases hm
      rfl
  | cons h t ih =>
      intro c m hm hname
      rw [applySetCookies] at hm
      cases hp : parseSetCookie h with
      | none => rw [hp] at hm; cases hm
      | some kv =>
          rw [hp] at hm
          have hkname : ¬ kv.1 = name := by
            intro hk
            apply hname
            rw [setCookieNames, List.filterMap]
            rw [hp]
            simp [hk]
          have hnot : name ∉ setCookieNames t := by
            intro hmem
            apply hname
            rw [setCookieNames] at hmem ⊢
            simp only [List.filterMap, hp]
            simp [hmem]
          calc lookupCookie m name
              = lookupCookie (setCookie c kv.1 kv.2) name := ih (setCookie c kv.1 kv.2) m hm hnot
            _ = lookupCookie c name := lookupCookie_setCookie_ne c kv.1 kv.2 name hkname


/-- C1: the claim states that the windows `getVideo` enumerates are
contiguous, non-overlapping, cover the range exactly once, each last at most
60 minutes, and end at `min(currentStart + 60min, end)`. The code instead
compares the *truncated* minute difference against 60, so for the 60.5-minute
range `[0, 3630000)` with a single camera it enumerates the window
`[0, 3630000]` (60.5 minutes long, ending at the range end rather than at
`min(0 + 60min, end) = 3600000`) followed by the overlapping window
`[3600000, 3630000]`, covering the last 30 seconds twice. -/
theorem getVideo_window_exceeds_cap_and_overlaps :
    (getVideoRun testEnv true [⟨"a", "cam"⟩] 0 3630000 3 []).map
        (fun r => (r.1.events, r.2)) =
      some ([.downloaded "a" 0 3630000 "0_3630000_cam.mp4",
             .downloaded "a" 3600000 3630000 "3600000_3630000_cam.mp4"], none) ∧
    3600000 < 3630000 - 0 ∧
    ¬ (min (0 + 3600000) 3630000 = 3630000) ∧
    3600000 < 3630000 := by decide

/-- C2: the claim states that within one window iteration every camera is
downloaded over the same sub-range and that `currentStart` advances to
`currentEnd` exactly once per window, after the camera loop. The code advances
`currentStart` by 60 minutes *inside* the camera loop, once per camera, so for
two cameras over the two-minute range `[0, 120000)` the first camera downloads
`[0, 120000]` while the second downloads `[3600000, 120000]` — a different
sub-range whose start lies beyond the window end. -/
theorem getVideo_second_camera_gets_shifted_range :
    (getVideoRun testEnv true [⟨"a", "cama"⟩, ⟨"b", "camb"⟩] 0 120000 2 []).map
        (fun r => (r.1.events.filter Event.isDownload, r.2)) =
      some ([.downloaded "a" 0 120000 "0_120000_cama.mp4",
             .downloaded "b" 3600000 120000 "3600000_120000_camb.mp4"], none) ∧
    ¬ ((3600000 : Nat) = 0) ∧ (120000 : Nat) < 3600000 := by decide

/-- C3 (counterexample): re-running `getVideo` with identical arguments is
*not* idempotent in the convert-to-mkv mode. A first run over one camera and
one window completes the pair: it downloads once and leaves only the final
`.mkv` artifact. Because the overwrite guard inspects only the raw `.mp4`
filename — which the conversion step deleted — the identical second run
performs one new download for the already-completed pair instead of skipping
it. -/
theorem getVideo_mkv_rerun_downloads_again :
    (getVideoRun testEnv false [⟨"cid", "cam1"⟩] 0 120000 2 []).map
        (fun r => (r.1.fs, (r.1.events.filter Event.isDownload).length,
          r.1.outputFiles.map OutputFile.filename, r.2)) =
      some ([("0_120000_cam1.mkv", 7)], 1, ["0_120000_cam1.mkv"], none) ∧
    (getVideoRun testEnv false [⟨"cid", "cam1"⟩] 0 120000 2 [("0_120000_cam1.mkv", 7)]).map
        (fun r => (r.1.events.filter Event.isDownload).length) = some 1 := by decide

/-- C3 (amended): in the mp4-kept mode the overwrite guard does make an
identical re-run idempotent: a single-window run from an empty filesystem
downloads its pair and leaves a non-empty raw `.mp4`, and the identical second
run performs no download, logs a skip, and leaves the filesystem unchanged. -/
theorem getVideo_rerun_skips_when_mp4_present (env : Env) (cam : Camera) (s e : Nat)
    (h1 : s < e) (h2 : e ≤ s + maxMinuteDiffMs)
    (hdl : 0 < env.downloadSize (exportUrl cam.id s e)) :
    getVideoRun env true [cam] s e 2 [] =
      some (⟨[(baseFilename env s e cam.name ++ ".mp4", env.downloadSize (exportUrl cam.id s e))],
             [.downloaded cam.id s e (baseFilename env s e cam.name ++ ".mp4")],
             [⟨cam.id, cam.name, s, e, baseFilename env s e cam.name ++ ".mp4"⟩]⟩, none) ∧
    getVideoRun env true [cam] s e 2
        [(baseFilename env s e cam.name ++ ".mp4", env.downloadSize (exportUrl cam.id s e))] =
      some (⟨[(baseFilename env s e cam.name ++ ".mp4", env.downloadSize (exportUrl cam.id s e))],
             [.skipped (baseFilename env s e cam.name ++ ".mp4")], []⟩, none) := by
  have hdiff : ¬ 60 < (e - s) / 60000 := by
    rw [maxMinuteDiffMs] at h2
    omega
  have hexit : ¬ (s + maxMinuteDiffMs < e) := by
    rw [maxMinuteDiffMs] at h2 ⊢
    omega
  have hdl' : ¬ (env.downloadSize (exportUrl cam.id s e) = 0) := by omega
  constructor
  · simp only [getVideoRun, getVideoFuel, if_pos h1, if_neg hdiff, camerasLoop, cameraBody,
      overwriteGuard, FS.statSize, FS.write, FS.unlink, List.find?_nil, List.filter_nil,
      Option.map_none', List.nil_append, if_pos, if_neg hexit, if_true]
  · simp only [getVideoRun, getVideoFuel, if_pos h1, if_neg hdiff, camerasLoop, cameraBody,
      overwriteGuard, FS.statSize, FS.write, FS.unlink, List.find?_cons, beq_self_eq_true,
      List.nil_append, if_neg hexit, if_neg hdl', Option.map_some', cond_true]

/-- C3 (witness): the amended re-run property applied at a concrete input. -/
theorem getVideo_rerun_skips_when_mp4_present_witness :
    (0 < 120000 ∧ 120000 ≤ 0 + maxMinuteDiffMs ∧
      0 < testEnv.downloadSize (exportUrl "cid" 0 120000)) ∧
    (getVideoRun testEnv true [⟨"cid", "cam1"⟩] 0 120000 2 [] =
      some (⟨[(baseFilename testEnv 0 120000 "cam1" ++ ".mp4",
               testEnv.downloadSize (exportUrl "cid" 0 120000))],
             [.downloaded "cid" 0 120000 (baseFilename testEnv 0 120000 "cam1" ++ ".mp4")],
             [⟨"cid", "cam1", 0, 120000, baseFilename testEnv 0 120000 "cam1" ++ ".mp4"⟩]⟩,
        none) ∧
    getVideoRun testEnv true [⟨"cid", "cam1"⟩] 0 120000 2
        [(baseFilename testEnv 0 120000 "cam1" ++ ".mp4",
          testEnv.downloadSize (exportUrl "cid" 0 120000))] =
      some (⟨[(baseFilename testEnv 0 120000 "cam1" ++ ".mp4",
               testEnv.downloadSize (exportUrl "cid" 0 120000))],
             [.skipped (baseFilename testEnv 0 120000 "cam1" ++ ".mp4")], []⟩, none)) :=
  ⟨⟨by decide, by decide, by decide⟩,
    getVideo_rerun_skips_when_mp4_present testEnv ⟨"cid", "cam1"⟩ 0 120000
      (by decide) (by decide) (by decide)⟩

/-- C4 (counterexample): the claim states the number of offsets equals
`floor(totalDuration) - chunkDuration` for every probed duration, including
non-integer ones. For `totalDuration = 125.5` and `chunkDuration = 10` the
handler computes `numberOfChunks = 115.5` without flooring, and the loop
`for (let loop = 0; loop < numberOfChunks; loop++)` runs 116 times — not the
`floor(125.5) - 10 = 115` the claim demands. -/
theorem chunkJobs_count_defies_floor_formula :
    (chunkJobs ((251 : ℚ) / 2) 10).length = 116 ∧
    ¬ ((116 : ℚ) = ⌊(251 : ℚ) / 2⌋ - 10) := by
  constructor
  · rw [chunkJobs, List.length_map, numberOfChunks, chunkOffsets_eq_range, List.length_range]
    rw [show (251 : ℚ) / 2 - 10 = 231 / 2 by norm_num]
    rw [show ⌈(231 : ℚ) / 2⌉ = 116 by rw [Int.ceil_eq_iff]; norm_num]
    rfl
  · rw [show ⌊(251 : ℚ) / 2⌋ = 125 by rw [Int.floor_eq_iff]; norm_num]
    norm_num

/-- C4 (amended): the chunk partitioner produces the start offsets
`0, 1, 2, ...` advancing by one second, each paired with the fixed chunk
duration; the number of offsets is `⌈totalDuration - chunkDuration⌉`
(clamped at zero), which agrees with `floor(totalDuration) - chunkDuration`
for integer durations. In particular `totalDuration = 125`,
`chunkDuration = 10` yields exactly the 115 offsets `0..114`, each paired
with duration 10. -/
theorem chunkJobs_enumeration (d c : ℚ) :
    chunkJobs d c = (List.range (Int.toNat ⌈d - c⌉)).map (fun loop => (loop, c)) ∧
    chunkJobs 125 10 = (List.range 115).map (fun loop => (loop, (10 : ℚ))) := by
  constructor
  · rw [chunkJobs, numberOfChunks, chunkOffsets_eq_range]
  · rw [chunkJobs, numberOfChunks, chunkOffsets_eq_range]
    rw [show (125 : ℚ) - 10 = 115 by norm_num]
    rw [show ⌈(115 : ℚ)⌉ = 115 by rw [Int.ceil_eq_iff]; norm_num]
    rfl

/-- C5 (counterexample): the claim states the reporter computes
`rate = fileSizeBytes / max(1, elapsedSeconds)` even when the elapsed time
truncates to 0 seconds. The code divides by the raw elapsed seconds, so at
`(bytes = 2500000, seconds = 0)` JS division by zero yields `Infinity` and the
rendered string is `"Infinity MB"`, while the claimed formula would render
`"3 MB"`. -/
theorem throughputString_zero_elapsed_diverges :
    throughputString 2500000 0 = "Infinity MB" ∧
    throughputStringSpec 2500000 0 = "3 MB" ∧
    ¬ (throughputString 2500000 0 = throughputStringSpec 2500000 0) := by
  have hspec : throughputStringSpec 2500000 0 = "3 MB" := by
    rw [throughputStringSpec]
    rw [show ((2500000 : Nat) : ℚ) / ((max 1 0 : Nat) : ℚ) = 2500000 by norm_num]
    rw [if_pos (by norm_num)]
    rw [jsRound]
    rw [show (2500000 : ℚ) / 1000000 + 1 / 2 = 3 by norm_num]
    rw [show ⌊(3 : ℚ)⌋ = 3 by rw [Int.floor_eq_iff]; norm_num]
    rfl
  refine ⟨by decide, hspec, ?_⟩
  rw [hspec]
  decide

/-- C5 (amended): for every elapsed time of at least one second the code's
rendering agrees with the spec formula (`max(1, s) = s` there): rate is
`bytes / seconds`, rendered as `round(rate/1_000_000) ++ " MB"` when
`rate > 1_000_000` and `round(rate) ++ " B"` otherwise; concretely
`(2_500_000, 1)` renders `"3 MB"` and `(900_000, 1)` renders `"900000 B"`.
Only the zero-elapsed guard of the claim is absent from the code. -/
theorem throughputString_agrees_with_spec_for_positive_elapsed (b s : Nat) (h : 1 ≤ s) :
    throughputString b s = throughputStringSpec b s ∧
    throughputString 2500000 1 = "3 MB" ∧
    throughputString 900000 1 = "900000 B" := by
  refine ⟨?_, ?_, ?_⟩
  · rw [throughputString, throughputStringSpec, if_neg (by omega)]
    rw [Nat.max_eq_right h]
  · rw [throughputString, if_neg (by omega)]
    rw [show ((2500000 : Nat) : ℚ) / ((1 : Nat) : ℚ) = 2500000 by norm_num]
    rw [if_pos (by norm_num)]
    rw [jsRound]
    rw [show (2500000 : ℚ) / 1000000 + 1 / 2 = 3 by norm_num]
    rw [show ⌊(3 : ℚ)⌋ = 3 by rw [Int.floor_eq_iff]; norm_num]
    rfl
  · rw [throughputString, if_neg (by omega)]
    rw [show ((900000 : Nat) : ℚ) / ((1 : Nat) : ℚ) = 900000 by norm_num]
    rw [if_neg (by norm_num)]
    rw [jsRound]
    rw [show (900000 : ℚ) + 1 / 2 = 1800001 / 2 by norm_num]
    rw [show ⌊(1800001 : ℚ) / 2⌋ = 900000 by rw [Int.floor_eq_iff]; norm_num]
    rfl

/-- C5 (witness): the agreement applied at one second of elapsed time. -/
theorem throughputString_agrees_with_spec_for_positive_elapsed_witness :
    1 ≤ 1 ∧
    (throughputString 2500000 1 = throughputStringSpec 2500000 1 ∧
      throughputString 2500000 1 = "3 MB" ∧
      throughputString 900000 1 = "900000 B") :=
  ⟨by decide, throughputString_agrees_with_spec_for_positive_elapsed 2500000 1 (by decide)⟩

/-- C6: the overwrite guard applied to the raw filename before each download
decides exactly as claimed: a missing file proceeds; an existing zero-byte
file is deleted and proceeds; an existing non-empty file blocks, in which case
the camera-loop body performs no download, raises no error, records only the
skip, and hands the advanced cursor to the rest of the loop. -/
theorem overwriteGuard_decision_spec (fs : FS) (f : String) (env : Env) (mp4 : Bool)
    (s e cur curEnd : Nat) (cam : Camera) (st : RunState) :
    (FS.statSize fs f = none → overwriteGuard fs f = (.proceed, fs)) ∧
    (FS.statSize fs f = some 0 →
      overwriteGuard fs f = (.proceed, FS.unlink fs f) ∧
      FS.statSize (FS.unlink fs f) f = none) ∧
    (∀ n, FS.statSize fs f = some (n + 1) → overwriteGuard fs f = (.block, fs)) ∧
    (∀ n, FS.statSize st.fs (baseFilename env cur curEnd cam.name ++ ".mp4") = some (n + 1) →
      cameraBody env mp4 s e cam cur curEnd st =
        ({ st with events := st.events ++
            [.skipped (baseFilename env cur curEnd cam.name ++ ".mp4")] },
         cur + maxMinuteDiffMs, none)) := by
  refine ⟨?_, ?_, ?_, ?_⟩
  · intro h
    rw [overwriteGuard, h]
  · intro h
    rw [overwriteGuard, h]
    exact ⟨by simp, FS.statSize_unlink fs f⟩
  · intro n h
    rw [overwriteGuard, h]
    simp
  · intro n h
    simp only [cameraBody, overwriteGuard, h]
    simp

/-- C6 (witness): the three guard decisions and the blocked-body behaviour at
concrete filesystems. -/
theorem overwriteGuard_decision_spec_witness :
    overwriteGuard [] "a.mp4" = (.proceed, []) ∧
    overwriteGuard [("a.mp4", 0)] "a.mp4" = (.proceed, FS.unlink [("a.mp4", 0)] "a.mp4") ∧
    overwriteGuard [("a.mp4", 3)] "a.mp4" = (.block, [("a.mp4", 3)]) ∧
    cameraBody testEnv true 0 60 ⟨"cid", "cam1"⟩ 0 60 ⟨[("0_60_cam1.mp4", 3)], [], []⟩ =
      ({ (⟨[("0_60_cam1.mp4", 3)], [], []⟩ : RunState) with events := ([] : List Event) ++
          [.skipped (baseFilename testEnv 0 60 "cam1" ++ ".mp4")] },
       0 + maxMinuteDiffMs, none) :=
  ⟨(overwriteGuard_decision_spec [] "a.mp4" testEnv true 0 60 0 60 ⟨"cid", "cam1"⟩
      ⟨[], [], []⟩).1 (by decide),
   ((overwriteGuard_decision_spec [("a.mp4", 0)] "a.mp4" testEnv true 0 60 0 60 ⟨"cid", "cam1"⟩
      ⟨[], [], []⟩).2.1 (by decide)).1,
   (overwriteGuard_decision_spec [("a.mp4", 3)] "a.mp4" testEnv true 0 60 0 60 ⟨"cid", "cam1"⟩
      ⟨[], [], []⟩).2.2.1 2 (by decide),
   (overwriteGuard_decision_spec [] "a.mp4" testEnv true 0 60 0 60 ⟨"cid", "cam1"⟩
      ⟨[("0_60_cam1.mp4", 3)], [], []⟩).2.2.2 2 (by decide)⟩

/-- C7: when the mkv conversion of a downloaded window fails, the failure
propagates as a fatal failure of `getVideo` (the run ends with the conversion
error, appends no result entry, and records no removal), and the raw `.mp4`
file is preserved in the filesystem with the downloaded bytes — the deletion
of the raw file runs only after a successful conversion. -/
theorem conversion_failure_fatal_and_preserves_raw (env : Env) (cam : Camera) (s e : Nat)
    (fs0 : FS)
    (h1 : s < e) (h2 : e ≤ s + maxMinuteDiffMs)
    (hguard : FS.statSize fs0 (baseFilename env s e cam.name ++ ".mp4") = none)
    (hconv : env.convertOk (baseFilename env s e cam.name ++ ".mp4") = false) :
    getVideoRun env false [cam] s e 2 fs0 =
      some (⟨FS.write fs0 (baseFilename env s e cam.name ++ ".mp4")
               (env.downloadSize (exportUrl cam.id s e)),
             [.downloaded cam.id s e (baseFilename env s e cam.name ++ ".mp4")], []⟩,
        some ("Conversion error: " ++ (baseFilename env s e cam.name ++ ".mp4"))) ∧
    FS.statSize
        (FS.write fs0 (baseFilename env s e cam.name ++ ".mp4")
          (env.downloadSize (exportUrl cam.id s e)))
        (baseFilename env s e cam.name ++ ".mp4") =
      some (env.downloadSize (exportUrl cam.id s e)) := by
  have hdiff : ¬ 60 < (e - s) / 60000 := by
    rw [maxMinuteDiffMs] at h2
    omega
  constructor
  · simp only [getVideoRun, getVideoFuel, if_pos h1, if_neg hdiff, camerasLoop, cameraBody,
      overwriteGuard, hguard, hconv, List.nil_append, Bool.false_eq_true, if_false]
  · exact FS.statSize_write fs0 _ _

/-- C7 (witness): a failing conversion at a concrete input. -/
theorem conversion_failure_fatal_and_preserves_raw_witness :
    (0 < 120000 ∧ 120000 ≤ 0 + maxMinuteDiffMs ∧
      FS.statSize [] (baseFilename failConvertEnv 0 120000 "cam1" ++ ".mp4") = none ∧
      failConvertEnv.convertOk (baseFilename failConvertEnv 0 120000 "cam1" ++ ".mp4") = false) ∧
    (getVideoRun failConvertEnv false [⟨"cid", "cam1"⟩] 0 120000 2 [] =
      some (⟨FS.write [] (baseFilename failConvertEnv 0 120000 "cam1" ++ ".mp4")
               (failConvertEnv.downloadSize (exportUrl "cid" 0 120000)),
             [.downloaded "cid" 0 120000 (baseFilename failConvertEnv 0 120000 "cam1" ++ ".mp4")],
             []⟩,
        some ("Conversion error: " ++ (baseFilename failConvertEnv 0 120000 "cam1" ++ ".mp4"))) ∧
    FS.statSize
        (FS.write [] (baseFilename failConvertEnv 0 120000 "cam1" ++ ".mp4")
          (failConvertEnv.downloadSize (exportUrl "cid" 0 120000)))
        (baseFilename failConvertEnv 0 120000 "cam1" ++ ".mp4") =
      some (failConvertEnv.downloadSize (exportUrl "cid" 0 120000))) :=
  ⟨⟨by decide, by decide, by decide, by decide⟩,
    conversion_failure_fatal_and_preserves_raw failConvertEnv ⟨"cid", "cam1"⟩ 0 120000 []
      (by decide) (by decide) (by decide) (by decide)⟩

/-- C8: one camera over the two-minute range 2023-07-22T15:40:00Z
(epoch-ms 1690040400000) to 15:42:00Z (1690040520000) with `mp4 = false`
executes exactly one window: the run performs exactly one download of the raw
`.mp4`, one conversion, removes the raw file (it is absent from the final
filesystem), and returns exactly one result entry whose filename ends in
`.mkv`. -/
theorem getVideo_single_window_end_to_end (env : Env) (cam : Camera)
    (hconv : env.convertOk
      (baseFilename env 1690040400000 1690040520000 cam.name ++ ".mp4") = true) :
    getVideoRun env false [cam] 1690040400000 1690040520000 2 [] =
      some (⟨[(baseFilename env 1690040400000 1690040520000 cam.name ++ ".mkv",
               env.convertedSize
                 (baseFilename env 1690040400000 1690040520000 cam.name ++ ".mkv"))],
             [.downloaded cam.id 1690040400000 1690040520000
                (baseFilename env 1690040400000 1690040520000 cam.name ++ ".mp4"),
              .converted (baseFilename env 1690040400000 1690040520000 cam.name ++ ".mp4")
                (baseFilename env 1690040400000 1690040520000 cam.name ++ ".mkv"),
              .removed (baseFilename env 1690040400000 1690040520000 cam.name ++ ".mp4")],
             [⟨cam.id, cam.name, 1690040400000, 1690040520000,
               baseFilename env 1690040400000 1690040520000 cam.name ++ ".mkv"⟩]⟩, none) ∧
    (∃ b, baseFilename env 1690040400000 1690040520000 cam.name ++ ".mkv" = b ++ ".mkv") ∧
    FS.statSize
        [(baseFilename env 1690040400000 1690040520000 cam.name ++ ".mkv",
          env.convertedSize (baseFilename env 1690040400000 1690040520000 cam.name ++ ".mkv"))]
        (baseFilename env 1690040400000 1690040520000 cam.name ++ ".mp4") = none := by
  have h1 : (1690040400000 : Nat) < 1690040520000 := by norm_num
  have hdiff : ¬ 60 < ((1690040520000 : Nat) - 1690040400000) / 60000 := by norm_num
  have hexit : ¬ ((1690040400000 : Nat) + maxMinuteDiffMs < 1690040520000) := by
    rw [maxMinuteDiffMs]
    norm_num
  have hne1 : ((baseFilename env 1690040400000 1690040520000 cam.name ++ ".mp4") ==
      (baseFilename env 1690040400000 1690040520000 cam.name ++ ".mkv")) = false :=
    mp4_beq_mkv_false _
  have hne2 : ((baseFilename env 1690040400000 1690040520000 cam.name ++ ".mkv") ==
      (baseFilename env 1690040400000 1690040520000 cam.name ++ ".mp4")) = false :=
    BEq.symm_false hne1
  refine ⟨?_, ⟨baseFilename env 1690040400000 1690040520000 cam.name, rfl⟩, ?_⟩
  · simp only [getVideoRun, getVideoFuel, if_pos h1, if_neg hdiff, if_neg hexit, camerasLoop,
      cameraBody, overwriteGuard, FS.statSize, FS.write, FS.unlink, List.find?_nil,
      List.filter_nil, List.nil_append, hconv, Bool.false_eq_true, if_false, if_true,
      List.filter_cons, hne1, hne2, beq_self_eq_true, Bool.not_true, Bool.not_false,
      List.find?_cons, List.cons_append, Option.map_none', Option.map_some']
  · simp [FS.statSize, List.find?, hne2]

/-- C8 (witness): the end-to-end scenario at a concrete environment. -/
theorem getVideo_single_window_end_to_end_witness :
    testEnv.convertOk
        (baseFilename testEnv 1690040400000 1690040520000 "cam1" ++ ".mp4") = true ∧
    (getVideoRun testEnv false [⟨"cid", "cam1"⟩] 1690040400000 1690040520000 2 [] =
      some (⟨[(baseFilename testEnv 1690040400000 1690040520000 "cam1" ++ ".mkv",
               testEnv.convertedSize
                 (baseFilename testEnv 1690040400000 1690040520000 "cam1" ++ ".mkv"))],
             [.downloaded "cid" 1690040400000 1690040520000
                (baseFilename testEnv 1690040400000 1690040520000 "cam1" ++ ".mp4"),
              .converted (baseFilename testEnv 1690040400000 1690040520000 "cam1" ++ ".mp4")
                (baseFilename testEnv 1690040400000 1690040520000 "cam1" ++ ".mkv"),
              .removed (baseFilename testEnv 1690040400000 1690040520000 "cam1" ++ ".mp4")],
             [⟨"cid", "cam1", 1690040400000, 1690040520000,
               baseFilename testEnv 1690040400000 1690040520000 "cam1" ++ ".mkv"⟩]⟩, none) ∧
    (∃ b, baseFilename testEnv 1690040400000 1690040520000 "cam1" ++ ".mkv" = b ++ ".mkv") ∧
    FS.statSize
        [(baseFilename testEnv 1690040400000 1690040520000 "cam1" ++ ".mkv",
          testEnv.convertedSize
            (baseFilename testEnv 1690040400000 1690040520000 "cam1" ++ ".mkv"))]
        (baseFilename testEnv 1690040400000 1690040520000 "cam1" ++ ".mp4") = none) :=
  ⟨by decide,
    getVideo_single_window_end_to_end testEnv ⟨"cid", "cam1"⟩ (by decide)⟩

/-- C9: the updated session-token map returned by `postWithCookies` and by
`getBinaryDataWithCookies` agrees with the input map on every token name not
named in the response's `Set-Cookie` headers, and when the response carries no
`Set-Cookie` header it equals the input map exactly; the refresh only adds or
overrides the names the server mentions. -/
theorem updatedCookies_frame_property (c : Cookies) (headerLines : List String)
    (m : Cookies) (name : String) :
    (postWithCookiesUpdate c none = some c ∧
      getBinaryDataWithCookiesUpdate c none = some c) ∧
    (postWithCookiesUpdate c (some headerLines) = some m →
      name ∉ setCookieNames headerLines →
      lookupCookie m name = lookupCookie c name) ∧
    (getBinaryDataWithCookiesUpdate c (some headerLines) = some m →
      name ∉ setCookieNames headerLines →
      lookupCookie m name = lookupCookie c name) := by
  refine ⟨⟨rfl, rfl⟩, ?_, ?_⟩
  · intro hm hname
    exact applySetCookies_lookup_frame name headerLines c m hm hname
  · intro hm hname
    exact applySetCookies_lookup_frame name headerLines c m hm hname

/-- C9 (witness): a refresh that overrides `TOKEN` leaves the unrelated token
`a` untouched. -/
theorem updatedCookies_frame_property_witness :
    (postWithCookiesUpdate [("a", "1"), ("TOKEN", "2")] (some ["TOKEN=3; Path=/"]) =
        some [("a", "1"), ("TOKEN", "3")] ∧
      "a" ∉ setCookieNames ["TOKEN=3; Path=/"]) ∧
    lookupCookie [("a", "1"), ("TOKEN", "3")] "a" =
      lookupCookie [("a", "1"), ("TOKEN", "2")] "a" :=
  ⟨⟨by decide, by decide⟩,
    (updatedCookies_frame_property [("a", "1"), ("TOKEN", "2")] ["TOKEN=3; Path=/"]
        [("a", "1"), ("TOKEN", "3")] "a").2.1 (by decide) (by decide)⟩

/-- C10: when the probed duration is at most the requested chunk duration the
`extract-audio` handler schedules zero extraction jobs (the non-positive
`numberOfChunks` makes the loop body never run) and the collection step
completes successfully with the empty result list instead of failing. -/
theorem extractAudio_short_input_yields_no_jobs (d c : ℚ)
    (extract : Nat → ℚ → Except String String) (h : d ≤ c) :
    chunkOffsets (numberOfChunks d c) = [] ∧
    extractAudioHandlerResult d c extract = Except.ok [] := by
  have hceil : ⌈numberOfChunks d c⌉ ≤ 0 := by
    rw [Int.ceil_le]
    push_cast
    rw [numberOfChunks]
    linarith
  have hz : Int.toNat ⌈numberOfChunks d c⌉ = 0 := by omega
  have hoff : chunkOffsets (numberOfChunks d c) = [] := by
    rw [chunkOffsets_eq_range, hz]
    rfl
  exact ⟨hoff, by rw [extractAudioHandlerResult, hoff]; rfl⟩

/-- C10 (witness): a 5-second input with 10-second chunks schedules nothing
and succeeds with the empty list. -/
theorem extractAudio_short_input_yields_no_jobs_witness :
    (5 : ℚ) ≤ 10 ∧
    (chunkOffsets (numberOfChunks 5 10) = [] ∧
      extractAudioHandlerResult 5 10 (fun _ _ => Except.ok "out.wav") = Except.ok []) :=
  ⟨by decide, extractAudio_short_input_yields_no_jobs 5 10 (fun _ _ => Except.ok "out.wav")
    (by decide)⟩
